import Mathlib

set_option maxRecDepth 40000

/-!
Verification of the SEBI PDF-analyzer pipeline (`src/app.py`).

The development embeds the three core functions of the script:

* `extract_text_from_pdf` — per-page native-text / OCR routing and
  newline-joined concatenation, with a page limit defaulting to 20 and a
  surrounding try/except that turns any processing error into `None`;
* `clean_extracted_text` — six sequential `re.sub`-style substitutions
  followed by `str.strip()`, realised here with a small backtracking
  regular-expression engine mirroring Python's leftmost / greedy /
  first-alternative semantics for the concrete patterns the script uses;
* `get_llm_analysis` — prompt building plus an outbound call to the
  generative service, modelled as an explicit oracle of type
  `String → Except String String`.

External effects (the PDF parser, the OCR engine, the generative service)
are modelled as data on the `Page` structure and as the oracle argument.
-/

namespace SebiApp

/-! ## Python string primitives (ASCII fragment) -/

/-- Python `str.isspace` on the ASCII whitespace characters that the
script's inputs and regex patterns can produce. -/
def pyIsSpace (c : Char) : Bool :=
  c == ' ' || c == '\t' || c == '\n' || c == '\r' || c == '\x0b' || c == '\x0c'

/-- Python `str.lower`, restricted to ASCII letters (all case-carrying
characters appearing in the script's patterns are ASCII). -/
def pyToLower (c : Char) : Char :=
  if 'A' ≤ c && c ≤ 'Z' then Char.ofNat (c.toNat + 32) else c

/-- Python `str.strip()` on a character list: drop leading and trailing
whitespace. -/
def pyStrip (l : List Char) : List Char :=
  ((l.dropWhile pyIsSpace).reverse.dropWhile pyIsSpace).reverse

/-- Python `str.startswith` on character lists. -/
def pyStartsWith : List Char → List Char → Bool
  | [], _ => true
  | _ :: _, [] => false
  | a :: ps, b :: cs => a == b && pyStartsWith ps cs

/-! ## A small backtracking regex engine

Enough of Python's `re` to express the six patterns of
`clean_extracted_text`: literals (optionally case-insensitive),
the classes `\d`, `[A-Za-z]`, `\s`, alternation, concatenation and
greedy counted repetition.  `Regex.lens` returns every length of a
match starting at the head of the input, in the engine's backtracking
priority order (greedy repetitions longest-first, alternations
left-first), so its head is exactly the match Python's engine commits
to at that position. -/

inductive CharClass : Type
  | digit      -- \d (ASCII fragment)
  | alpha      -- [A-Za-z]
  | ws         -- \s (ASCII fragment)
deriving DecidableEq

def ccMatch : CharClass → Char → Bool
  | .digit, c => '0' ≤ c && c ≤ '9'
  | .alpha, c => ('A' ≤ c && c ≤ 'Z') || ('a' ≤ c && c ≤ 'z')
  | .ws, c => pyIsSpace c

inductive Regex : Type
  | lit (s : String)
  | cls (c : CharClass)
  | alt (a b : Regex)
  | cat (a b : Regex)
  | rep (r : Regex) (lo : Nat) (hi : Option Nat)
deriving DecidableEq

/-- Character comparison, case-folded when `ci` is set
(Python's `re.IGNORECASE`). -/
def charEq (ci : Bool) (a b : Char) : Bool :=
  if ci then pyToLower a == pyToLower b else a == b

/-- Does the literal `p` match a prefix of `s` (under `ci` folding)? -/
def matchLit (ci : Bool) : List Char → List Char → Bool
  | [], _ => true
  | _ :: _, [] => false
  | a :: ps, b :: cs => charEq ci a b && matchLit ci ps cs

/-- Match lengths of a greedy repetition, more iterations first; each
iteration must consume at least one character (all repeated bodies in
the script's patterns do), and `fuel` bounds the iteration count by the
input length. -/
def repLensAux (lens1 : List Char → List Nat) :
    Nat → Nat → Option Nat → List Char → List Nat
  | 0, lo, _, _ => if lo = 0 then [0] else []
  | fuel + 1, lo, hi, s =>
    let more :=
      if hi = some 0 then []
      else
        ((lens1 s).filter (0 < ·)).flatMap fun ℓ =>
          (repLensAux lens1 fuel (lo - 1) (Option.map (· - 1) hi) (s.drop ℓ)).map (ℓ + ·)
    more ++ (if lo = 0 then [0] else [])

/-- All lengths of matches of `r` at the head of `s`, in backtracking
priority order. -/
def Regex.lens (ci : Bool) : Regex → List Char → List Nat
  | .lit p, s => if matchLit ci p.data s then [p.data.length] else []
  | .cls c, s =>
    match s with
    | [] => []
    | a :: _ => if ccMatch c a then [1] else []
  | .alt a b, s => a.lens ci s ++ b.lens ci s
  | .cat a b, s =>
    (a.lens ci s).flatMap fun ℓ => (b.lens ci (s.drop ℓ)).map (ℓ + ·)
  | .rep r lo hi, s => repLensAux (r.lens ci) s.length lo hi s

/-- Global substitution in the style of `re.sub`: scan left to right;
at the first position where the pattern matches, commit to the
engine's priority match, emit the replacement, and continue after the
matched segment. -/
def subAllAux (r : Regex) (ci : Bool) (repl : List Char) :
    Nat → List Char → List Char
  | 0, s => s
  | fuel + 1, s =>
    match s with
    | [] => []
    | c :: rest =>
      match (r.lens ci (c :: rest)).head? with
      | some ℓ =>
        if 0 < ℓ then repl ++ subAllAux r ci repl fuel ((c :: rest).drop ℓ)
        else c :: subAllAux r ci repl fuel rest
      | none => c :: subAllAux r ci repl fuel rest

def subAll (r : Regex) (ci : Bool) (repl : List Char) (s : List Char) : List Char :=
  subAllAux r ci repl s.length s

/-! ## The six patterns of `clean_extracted_text` -/

/-- Tail of the letterhead pattern after the `(S=3|S31)` group: the
multilingual phrase exactly as written in the source (the `\n` of the
raw pattern denotes a newline), then the English line. -/
def letterheadTail : String :=
  " \u00e0\u00a4\u00aa\u00e0\u00a5\u00e0\u00a4\u00b0\u00e0\u00a4\u00a4\u00e0\u00a4\u00bf\u00e0\u00a4\u00ad\u00e0\u00a5\u201a\u00e0\u00a4\u00a4\u00e0\u00a4\u00bf \u00e0\u00a4\u201d\u00e0\u00a4\u00b0 \u00e0\u00a4\u00b5\u00e0\u00a4\u00bf\u00e0\u00a4\u00a8\u00e0\u00a4\u00bf\u00e0\u00a4\u00ae\u00e0\u00a4\u00af \u00e0\u00a4\u00ac\u00e0\u00a5\u2039\u00e0\u00a4\u00b0\u00e0\u00a5\u00e0\u00a4\u00a1\nSecurities and Exchange Board of India"

/-- `(S=3|S31) …\nSecurities and Exchange Board of India`
(used with `re.IGNORECASE`). -/
def patLetterhead : Regex :=
  .cat (.alt (.lit "S=3") (.lit "S31")) (.lit letterheadTail)

/-- `Page \d+ of \d+` -/
def patPage : Regex :=
  .cat (.lit "Page ")
    (.cat (.rep (.cls .digit) 1 none)
      (.cat (.lit " of ") (.rep (.cls .digit) 1 none)))

/-- `Issued on: [A-Za-z]+ \d{1,2}, \d{4}` -/
def patIssued : Regex :=
  .cat (.lit "Issued on: ")
    (.cat (.rep (.cls .alpha) 1 none)
      (.cat (.lit " ")
        (.cat (.rep (.cls .digit) 1 (some 2))
          (.cat (.lit ", ") (.rep (.cls .digit) 4 (some 4))))))

/-- `Yours faithfully,` -/
def patYours : Regex := .lit "Yours faithfully,"

/-- `\*{3,}` -/
def patStars : Regex := .rep (.lit "*") 3 none

/-- `\n\s*\n\s*\n` (replaced by `"\n\n"`). -/
def patBlank : Regex :=
  .cat (.lit "\n")
    (.cat (.rep (.cls .ws) 0 none)
      (.cat (.lit "\n")
        (.cat (.rep (.cls .ws) 0 none) (.lit "\n"))))

/-! ## The pipeline functions of `src/app.py` -/

/-- One PDF page as the extractor observes it: the native text returned
by `page.get_text("text")`, whether loading/rendering the page raises,
and the OCR engine's output on the page's raster image — the list of
recognized fragments (`t[1]` of each tuple) or a failure flag when
`readtext` raises. -/
structure Page where
  nativeText : String
  loadFails : Bool
  ocrFragments : List String
  ocrFails : Bool
deriving DecidableEq

/-- The OCR-routing test of line 32:
`len(text.strip()) < 500 and not text.strip().lower().startswith("s=3")`. -/
def pageUsesOCR (text : String) : Bool :=
  decide ((pyStrip text.data).length < 500)
    && !(pyStartsWith "s=3".data ((pyStrip text.data).map pyToLower))

/-- `" ".join(fragments)` -/
def spaceJoin : List String → String
  | [] => ""
  | [t] => t
  | t :: ts => t ++ " " ++ spaceJoin ts

/-- The text the loop body produces for one page (`none` when an
exception is raised while processing that page). -/
def extractPage (p : Page) : Option String :=
  if p.loadFails then none
  else if pageUsesOCR p.nativeText then
    if p.ocrFails then none else some (spaceJoin p.ocrFragments)
  else some p.nativeText

/-- The accumulation loop of `extract_text_from_pdf`
(`all_text += text + "\n"`), aborting on the first page error. -/
def extractLoop : List Page → String → Option String
  | [], acc => some acc
  | p :: ps, acc =>
    match extractPage p with
    | none => none
    | some t => extractLoop ps (acc ++ t ++ "\n")

/-- `extract_text_from_pdf(pdf_bytes, max_pages=20)`.  The parsed
document is `none` when `fitz.open` raises; the loop ranges over
`range(min(doc.page_count, max_pages))`, i.e. over `pages.take
max_pages`; any exception yields `none` (the script shows `st.error`
and returns `None`, so no partial text survives). -/
def extract_text_from_pdf (doc : Option (List Page)) (max_pages : Nat := 20) :
    Option String :=
  match doc with
  | none => none
  | some pages => extractLoop (pages.take max_pages) ""

/-- The call site of line 121 (`extract_text_from_pdf(pdf_bytes)`):
the UI path passes no page limit. -/
def ui_extracted_text (doc : Option (List Page)) : Option String :=
  extract_text_from_pdf doc

/-- `clean_extracted_text(text)`: five removals, the blank-line
collapse, then `strip()`. -/
def clean_extracted_text (text : String) : String :=
  if text.isEmpty then ""
  else
    let t1 := subAll patLetterhead true [] text.data
    let t2 := subAll patPage false [] t1
    let t3 := subAll patIssued false [] t2
    let t4 := subAll patYours false [] t3
    let t5 := subAll patStars false [] t4
    let t6 := subAll patBlank false "\n\n".data t5
    String.mk (pyStrip t6)

/-- The fixed part of the analysis prompt before `{document_text}`,
exactly as in the source. -/
def promptPre : String :=
  "\n    \u00e2\u20ac\u00a2 The review draft must begin by classifying the consultation paper under the most\nappropriate market division: Primary Markets, Secondary Markets, Commodity Markets, or\nExternal Markets\n1. Background / Regulatory Context/ Introduction\n\u00e2\u20ac\u00a2 Existing framework, evolution, pain point triggering reform\n\u00e2\u20ac\u00a2 Legislative / circular / regulatory history\n2. Summary of Key Proposals Only include what SEBI has proposed\n\u00e2\u20ac\u00a2 Neutral narration, not opinion\n3. Critical Analysis of the Proposals\nThe core of the review, structured proposal-by-proposal as they appear in the CP.\n*For each distinct proposal in the CP (e.g., Proposal 1, Proposal 2...), use the following sub-\nstructure:\n\u00e2\u20ac\u00a2 Proposal Number: Title of Proposal from CP\n\u00e2\u20ac\u00a2 Concept Proposed: A clear, neutral summary of what SEBI is proposing.\n\u00e2\u20ac\u00a2 SEBI&#39;s Rationale: The reasoning and policy objectives behind the proposal as stated by\nSEBI.\n\u00e2\u20ac\u00a2 Global Benchmarking: Analysis of how similar issues are regulated in key international\njurisdictions (e.g., US SEC, UK FCA, EU ESMA, Singapore MAS, Hong Kong\nHKEX/SFC). (The global benchmarking should be country specific, and take only those\njurisdiction which suits India financial market) (Provide references link for this part only)\n\u00e2\u20ac\u00a2 Critical Assessment &amp; Recommendations:\no Our Stance: Clearly state the team&#39;s position (e.g., Accepted, Accepted with\nModification, Not Accepted).\no Supporting Rationale: Justification for the stance. Why is it good/bad? What are the\npotential impacts?\no Proposed Modifications/Safeguards: If accepted with modification, provide specific,\nactionable alternative language or suggestions (e.g., phased implementation, different\nthresholds, added anti-avoidance clauses).\n\n4. Conclusion and Overall Recommendations\n5. List down the 5 relevant questions that the Finance Ministry should ask the regulator\n(SEBI) about this consultation paper. (The questions must be critical, that would be\nuseful in enhancing the structure of the Indian market).\n    "

/-- The fixed part of the analysis prompt after `{document_text}`. -/
def promptPost : String :=
  "\n    ---\n\n    Ensure the output strictly adheres to the requested  main headings.\n    "

/-- The f-string of `get_llm_analysis`. -/
def buildPrompt (document_text : String) : String :=
  promptPre ++ document_text ++ promptPost

/-- `get_llm_analysis(document_text)`.  The outbound call
`model.generate_content(prompt).text` is the oracle `model`; a raised
exception is its `.error` branch, caught and rendered as
`f"Error communicating with Gemini API: {e}"`. -/
def get_llm_analysis (model : String → Except String String)
    (document_text : String) : String :=
  if document_text.isEmpty then "No text extracted from PDF for analysis."
  else
    match model (buildPrompt document_text) with
    | .ok t => t
    | .error e => "Error communicating with Gemini API: " ++ e

/-! ## Compositional descriptions of the extraction loop -/

/-- The concatenation the loop builds: each per-page result followed by
a newline. -/
def joinPages : List String → String
  | [] => ""
  | t :: ts => t ++ "\n" ++ joinPages ts

/-- Per-page results of a page list, `none` as soon as any page fails. -/
def extractPages : List Page → Option (List String)
  | [] => some []
  | p :: ps =>
    match extractPage p, extractPages ps with
    | some t, some ts => some (t :: ts)
    | _, _ => none

/-- Taken from the spec's words (claim C3): per-page results joined with
a newline **separator**, i.e. `"\n".join(results)`. -/
def specNewlineJoined (ts : List String) : String :=
  String.intercalate "\n" ts

end SebiApp

namespace SebiApp

/-! ## Helper lemmas -/

theorem mem_of_head?_eq {α : Type} {l : List α} {a : α}
    (h : l.head? = some a) : a ∈ l := by
  cases l with
  | nil => simp at h
  | cons b t => simp_all [List.head?]

theorem dropWhile_dropWhile (p : α → Bool) (l : List α) :
    List.dropWhile p (List.dropWhile p l) = List.dropWhile p l := by
  induction l with
  | nil => rfl
  | cons a t ih =>
    by_cases h : p a = true <;> simp [List.dropWhile_cons, h, ih]

theorem dropWhile_head_false {p : α → Bool} {l : List α} {c : α} {t : List α}
    (h : List.dropWhile p l = c :: t) : p c = false := by
  induction l with
  | nil => simp at h
  | cons a s ih =>
    rw [List.dropWhile_cons] at h
    by_cases hp : p a = true
    · exact ih (by simpa [hp] using h)
    · simp [hp] at h
      rw [← h.1]
      simpa using hp

theorem exists_dropWhile_append (p : α → Bool) (l : List α) :
    ∃ u, l = u ++ List.dropWhile p l := by
  induction l with
  | nil => exact ⟨[], rfl⟩
  | cons a s ih =>
    rw [List.dropWhile_cons]
    by_cases hp : p a = true
    · obtain ⟨u, hu⟩ := ih
      exact ⟨a :: u, by simp [hp, ← hu]⟩
    · exact ⟨[], by simp [hp]⟩

theorem pyStrip_idem (l : List Char) : pyStrip (pyStrip l) = pyStrip l := by
  unfold pyStrip
  set A := List.dropWhile pyIsSpace l with hA
  set B' := List.dropWhile pyIsSpace A.reverse with hB'
  have hBrev : B'.reverse.reverse = B' := List.reverse_reverse B'
  -- the back-stripped result is a prefix of `A`
  obtain ⟨u, hu⟩ := exists_dropWhile_append pyIsSpace A.reverse
  have hApre : A = B'.reverse ++ u.reverse := by
    have := congrArg List.reverse hu
    simpa [List.reverse_append] using this
  -- front of the result still fails the predicate
  have h1 : List.dropWhile pyIsSpace B'.reverse = B'.reverse := by
    cases hBr : B'.reverse with
    | nil => rfl
    | cons c t =>
      have hc : pyIsSpace c = false := by
        have : A = c :: (t ++ u.reverse) := by rw [hApre, hBr]; simp
        exact dropWhile_head_false (hA ▸ this.symm).symm
      simp [List.dropWhile_cons, hc]
  rw [h1, hBrev, hB']
  rw [dropWhile_dropWhile]

theorem pyStrip_sublist (l : List Char) : (pyStrip l).Sublist l := by
  unfold pyStrip
  have h1 : (List.dropWhile pyIsSpace l).Sublist l := List.dropWhile_sublist _
  have h2 : (List.dropWhile pyIsSpace (List.dropWhile pyIsSpace l).reverse).Sublist
      (List.dropWhile pyIsSpace l).reverse := List.dropWhile_sublist _
  have h3 := List.reverse_sublist.mpr h2
  simp only [List.reverse_reverse] at h3
  exact h3.trans h1

/-- `clean_extracted_text` on a nonempty string, unfolded to its
pipeline normal form. -/
theorem clean_eq_pipeline (text : String) (h : text.isEmpty = false) :
    clean_extracted_text text =
      String.mk (pyStrip
        (subAll patBlank false "\n\n".data
          (subAll patStars false []
            (subAll patYours false []
              (subAll patIssued false []
                (subAll patPage false []
                  (subAll patLetterhead true [] text.data))))))) := by
  unfold clean_extracted_text
  simp [h]

/-! ## The extraction loop versus its compositional description -/

theorem extractLoop_eq (l : List Page) (acc : String) :
    extractLoop l acc = (extractPages l).map (fun ts => acc ++ joinPages ts) := by
  induction l generalizing acc with
  | nil => simp [extractLoop, extractPages, joinPages]
  | cons p ps ih =>
    cases hp : extractPage p with
    | none => simp [extractLoop, extractPages, hp]
    | some t =>
      rw [extractLoop, extractPages]
      simp only [hp, ih]
      cases hps : extractPages ps with
      | none => simp
      | some ts => simp [joinPages, String.append_assoc]

theorem extractPages_none {l : List Page} {p : Page}
    (hmem : p ∈ l) (hfail : extractPage p = none) : extractPages l = none := by
  induction l with
  | nil => simp at hmem
  | cons q qs ih =>
    rw [extractPages]
    rcases List.mem_cons.mp hmem with h | h
    · rw [← h, hfail]
    · rw [ih h]
      cases extractPage q <;> rfl

theorem extractPages_native {l : List Page}
    (h : ∀ p ∈ l, p.loadFails = false ∧ pageUsesOCR p.nativeText = false) :
    extractPages l = some (l.map Page.nativeText) := by
  induction l with
  | nil => rfl
  | cons p ps ih =>
    have hp := h p (List.mem_cons_self p ps)
    have hps := ih fun q hq => h q (List.mem_cons_of_mem p hq)
    rw [extractPages, hps]
    simp [extractPage, hp.1, hp.2]

/-! ## The cleaned text is a subsequence of the input -/

theorem mem_lens_lit {ci : Bool} {p : String} {s : List Char} {ℓ : Nat}
    (h : ℓ ∈ Regex.lens ci (.lit p) s) :
    matchLit ci p.data s = true ∧ ℓ = p.data.length := by
  rw [show Regex.lens ci (.lit p) s
      = if matchLit ci p.data s then [p.data.length] else [] from rfl] at h
  by_cases hm : matchLit ci p.data s = true <;> simp [hm] at h ⊢
  exact h

theorem mem_lens_cat {ci : Bool} {a b : Regex} {s : List Char} {ℓ : Nat} :
    ℓ ∈ Regex.lens ci (.cat a b) s ↔
      ∃ ℓa ∈ Regex.lens ci a s, ∃ ℓb ∈ Regex.lens ci b (s.drop ℓa),
        ℓa + ℓb = ℓ := by
  rw [show Regex.lens ci (.cat a b) s
      = (Regex.lens ci a s).flatMap
          (fun ℓa => (Regex.lens ci b (s.drop ℓa)).map (ℓa + ·)) from rfl]
  simp [List.mem_flatMap, List.mem_map]

theorem matchLit_newline {s : List Char}
    (h : matchLit false "\n".data s = true) : ∃ t, s = '\n' :: t := by
  cases s with
  | nil => simp [matchLit] at h
  | cons b t =>
    refine ⟨t, ?_⟩
    have : ('\n' == b) = true := by
      have := h
      simp [matchLit, charEq] at this
      simpa using this
    rw [show b = '\n' from (eq_of_beq this).symm]

theorem blank_take_sublist {s : List Char} {ℓ : Nat}
    (h : ℓ ∈ Regex.lens false patBlank s) :
    ("\n\n".data).Sublist (s.take ℓ) := by
  rw [patBlank] at h
  rcases mem_lens_cat.mp h with ⟨ℓ1, h1, ℓr, hr, hsum⟩
  obtain ⟨hm1, hℓ1⟩ := mem_lens_lit h1
  obtain ⟨s1, rfl⟩ := matchLit_newline hm1
  subst hℓ1
  rcases mem_lens_cat.mp hr with ⟨ℓw, _, ℓ2, h2, hsum2⟩
  rcases mem_lens_cat.mp h2 with ⟨ℓa, ha, ℓb, _, hsum3⟩
  obtain ⟨hma, hℓa⟩ := mem_lens_lit ha
  subst hℓa
  simp only [List.drop_succ_cons, List.drop_zero] at hma h2 hr ⊢
  obtain ⟨s2, hs2⟩ := matchLit_newline hma
  subst hsum
  subst hsum2
  subst hsum3
  show ('\n' :: '\n' :: []).Sublist _
  have h1len : "\n".data.length = 1 := rfl
  rw [h1len]
  rw [Nat.add_comm 1 (ℓw + (1 + ℓb)), List.take_succ_cons]
  refine List.Sublist.cons₂ '\n' ?_
  rw [List.singleton_sublist, List.take_add]
  refine List.mem_append_right _ ?_
  rw [show List.drop ℓw s1 = '\n' :: s2 from hs2, Nat.add_comm 1 ℓb,
    List.take_succ_cons]
  exact List.mem_cons_self _ _

theorem subAllAux_sublist (r : Regex) (ci : Bool) (repl : List Char)
    (H : ∀ s ℓ, ℓ ∈ Regex.lens ci r s → repl.Sublist (s.take ℓ)) :
    ∀ fuel s, (subAllAux r ci repl fuel s).Sublist s := by
  intro fuel
  induction fuel with
  | zero => intro s; rw [subAllAux]
  | succ n ih =>
    intro s
    cases s with
    | nil => rw [subAllAux]
    | cons c rest =>
      rw [subAllAux]
      cases hh : (Regex.lens ci r (c :: rest)).head? with
      | none => exact List.Sublist.cons₂ c (ih rest)
      | some ℓ =>
        by_cases hp : 0 < ℓ
        · simp only [hp, if_true]
          have hrepl := H _ _ (mem_of_head?_eq hh)
          have := List.Sublist.append hrepl (ih ((c :: rest).drop ℓ))
          simpa [List.take_append_drop] using this
        · simp only [hp, if_false]
          exact List.Sublist.cons₂ c (ih rest)

theorem subAll_nil_sublist (r : Regex) (ci : Bool) (s : List Char) :
    (subAll r ci [] s).Sublist s :=
  subAllAux_sublist r ci [] (fun _ _ _ => List.nil_sublist _) _ s

theorem subAll_blank_sublist (s : List Char) :
    (subAll patBlank false "\n\n".data s).Sublist s :=
  subAllAux_sublist _ _ _ (fun _ _ h => blank_take_sublist h) _ s

/-! ## Claim theorems -/

/-- C1: a page is routed to OCR exactly when its stripped native text
has fewer than 500 characters and, lowercased, does not start with
`"s=3"`; consequently a PDF whose pages (within the processed range)
all have at least 500 stripped characters not starting with the
sentinel never invokes OCR, and extraction returns the native texts
unchanged, newline-joined (assuming the pages load without error). -/
theorem C1_ocr_iff_threshold (pages : List Page) (n : Nat)
    (hlen : ∀ p ∈ pages.take n,
      500 ≤ (pyStrip p.nativeText.data).length ∧
      pyStartsWith "s=3".data ((pyStrip p.nativeText.data).map pyToLower) = false)
    (hload : ∀ p ∈ pages.take n, p.loadFails = false) :
    (∀ t : String, pageUsesOCR t = true ↔
      ((pyStrip t.data).length < 500 ∧
       pyStartsWith "s=3".data ((pyStrip t.data).map pyToLower) = false)) ∧
    (∀ p ∈ pages.take n, pageUsesOCR p.nativeText = false) ∧
    extract_text_from_pdf (some pages) n
      = some (joinPages ((pages.take n).map Page.nativeText)) := by
  have hno : ∀ p ∈ pages.take n, pageUsesOCR p.nativeText = false := by
    intro p hp
    have h500 := (hlen p hp).1
    have : ¬ (pyStrip p.nativeText.data).length < 500 := Nat.not_lt.mpr h500
    simp [pageUsesOCR, this]
  refine ⟨?_, hno, ?_⟩
  · intro t
    simp [pageUsesOCR]
  · have hpages := extractPages_native
      (l := pages.take n) (fun p hp => ⟨hload p hp, hno p hp⟩)
    show extractLoop (pages.take n) "" = _
    rw [extractLoop_eq, hpages]
    simp [String.empty_append]

theorem C1_ocr_iff_threshold_witness :
    extract_text_from_pdf
        (some [⟨String.mk (List.replicate 500 'a'), false, [], false⟩]) 20
      = some (joinPages
          (([(⟨String.mk (List.replicate 500 'a'), false, [], false⟩ : Page)].take 20).map
            Page.nativeText)) :=
  (C1_ocr_iff_threshold _ 20 (by decide) (by decide)).2.2

/-- C2 counterexample: `clean_extracted_text` is not idempotent.
Removing the footer `"Page 1 of 2"` from the middle of
`"PagPage 1 of 2e 1 of 2"` splices the surrounding characters into a
fresh `"Page 1 of 2"`, which a second pass removes. -/
theorem C2_not_idempotent :
    clean_extracted_text "PagPage 1 of 2e 1 of 2" = "Page 1 of 2" ∧
    clean_extracted_text (clean_extracted_text "PagPage 1 of 2e 1 of 2") = "" ∧
    clean_extracted_text (clean_extracted_text "PagPage 1 of 2e 1 of 2")
      ≠ clean_extracted_text "PagPage 1 of 2e 1 of 2" := by
  have e1 : clean_extracted_text "PagPage 1 of 2e 1 of 2" = "Page 1 of 2" := rfl
  have e2 : clean_extracted_text (clean_extracted_text "PagPage 1 of 2e 1 of 2")
      = "" := rfl
  refine ⟨e1, e2, ?_⟩
  rw [e2, e1]
  decide

/-- C2 (amended): normalization is idempotent on every input whose
normalized text is stable under the six substitutions — i.e. whenever
no removal pattern reappears in the cleaned text, as the spec's own
proviso assumes.  (The unconditional claim is refuted by
`C2_not_idempotent`.) -/
theorem C2_clean_idem_of_stable (x : String)
    (h1 : subAll patLetterhead true [] (clean_extracted_text x).data
        = (clean_extracted_text x).data)
    (h2 : subAll patPage false [] (clean_extracted_text x).data
        = (clean_extracted_text x).data)
    (h3 : subAll patIssued false [] (clean_extracted_text x).data
        = (clean_extracted_text x).data)
    (h4 : subAll patYours false [] (clean_extracted_text x).data
        = (clean_extracted_text x).data)
    (h5 : subAll patStars false [] (clean_extracted_text x).data
        = (clean_extracted_text x).data)
    (h6 : subAll patBlank false "\n\n".data (clean_extracted_text x).data
        = (clean_extracted_text x).data) :
    clean_extracted_text (clean_extracted_text x) = clean_extracted_text x := by
  set y := clean_extracted_text x with hy
  by_cases hye : y.isEmpty = true
  · rw [(String.isEmpty_iff y).mp hye]
    rfl
  · rw [clean_eq_pipeline y (Bool.not_eq_true _ ▸ hye), h1, h2, h3, h4, h5, h6]
    have hfix : pyStrip y.data = y.data := by
      by_cases hxe : x.isEmpty = true
      · refine absurd ?_ hye
        rw [hy]
        unfold clean_extracted_text
        rw [if_pos hxe]
        rfl
      · have hx := clean_eq_pipeline x (Bool.not_eq_true _ ▸ hxe)
        rw [hy, hx]
        exact pyStrip_idem _
    rw [hfix]

theorem C2_clean_idem_of_stable_witness :
    clean_extracted_text (clean_extracted_text "hello body text")
      = clean_extracted_text "hello body text" :=
  C2_clean_idem_of_stable "hello body text" rfl rfl rfl rfl rfl rfl

/-- C3 counterexample: the loop appends a newline **after** every
per-page result (`all_text += text + "\n"`), so the output of a
two-page document ends with a newline and differs from the per-page
results joined with a newline separator (`"\n".join`). -/
theorem C3_separator_counterexample :
    extractPage ⟨"", false, ["a"], false⟩ = some "a" ∧
    extractPage ⟨"", false, ["b"], false⟩ = some "b" ∧
    extract_text_from_pdf
        (some [⟨"", false, ["a"], false⟩, ⟨"", false, ["b"], false⟩]) 20
      = some "a\nb\n" ∧
    specNewlineJoined ["a", "b"] = "a\nb" ∧
    extract_text_from_pdf
        (some [⟨"", false, ["a"], false⟩, ⟨"", false, ["b"], false⟩]) 20
      ≠ some (specNewlineJoined ["a", "b"]) := by
  have e1 : extract_text_from_pdf
      (some [(⟨"", false, ["a"], false⟩ : Page), ⟨"", false, ["b"], false⟩]) 20
      = some "a\nb\n" := rfl
  have e2 : specNewlineJoined ["a", "b"] = "a\nb" := rfl
  refine ⟨rfl, rfl, e1, e2, ?_⟩
  rw [e1, e2]
  decide

/-- C3 (amended): extraction concatenates the per-page results in page
order, each result **terminated** by a newline (a newline separates
adjacent pages, and one trails the final page); only pages up to the
limit are processed, and pages beyond the limit contribute nothing. -/
theorem C3_pages_concatenation (pages : List Page) (n : Nat) (ts : List String)
    (h : extractPages (pages.take n) = some ts) :
    extract_text_from_pdf (some pages) n = some (joinPages ts) ∧
    extract_text_from_pdf (some pages) n
      = extract_text_from_pdf (some (pages.take n)) n := by
  constructor
  · show extractLoop (pages.take n) "" = _
    rw [extractLoop_eq, h]
    simp [String.empty_append]
  · show extractLoop (pages.take n) ""
      = extractLoop ((pages.take n).take n) ""
    rw [List.take_take, min_self]

theorem C3_pages_concatenation_witness :
    extract_text_from_pdf (some [(⟨"", false, ["a"], false⟩ : Page)]) 20
      = some (joinPages ["a"]) :=
  (C3_pages_concatenation [(⟨"", false, ["a"], false⟩ : Page)] 20 ["a"] rfl).1

/-- C4: extraction never yields partial text.  A parse failure yields
`none`; a successful result is the full newline-terminated
concatenation of every processed page's text; and if any page within
the processed range fails, the whole extraction returns `none`. -/
theorem C4_failure_no_partial (n : Nat) :
    extract_text_from_pdf none n = none ∧
    (∀ pages s, extract_text_from_pdf (some pages) n = some s →
      ∃ ts, extractPages (pages.take n) = some ts ∧ s = joinPages ts) ∧
    (∀ pages p, p ∈ pages.take n → extractPage p = none →
      extract_text_from_pdf (some pages) n = none) := by
  refine ⟨rfl, ?_, ?_⟩
  · intro pages s h
    rw [show extract_text_from_pdf (some pages) n
        = extractLoop (pages.take n) "" from rfl, extractLoop_eq] at h
    cases hp : extractPages (pages.take n) with
    | none =>
      rw [hp] at h
      exact Option.noConfusion (show (none : Option String) = some s from h)
    | some ts =>
      rw [hp] at h
      have h' : "" ++ joinPages ts = s := Option.some.inj h
      refine ⟨ts, rfl, ?_⟩
      rw [← h', String.empty_append]
  · intro pages p hmem hfail
    show extractLoop (pages.take n) "" = none
    rw [extractLoop_eq, extractPages_none hmem hfail]
    rfl

theorem C4_failure_no_partial_witness :
    extract_text_from_pdf none 20 = none ∧
    (∃ ts, extractPages ([(⟨"", false, ["a"], false⟩ : Page)].take 20) = some ts ∧
      "a\n" = joinPages ts) ∧
    extract_text_from_pdf (some [(⟨"", true, [], false⟩ : Page)]) 20 = none := by
  have h := C4_failure_no_partial 20
  refine ⟨h.1, h.2.1 [⟨"", false, ["a"], false⟩] "a\n" rfl,
    h.2.2 [⟨"", true, [], false⟩] ⟨"", true, [], false⟩ (by decide) rfl⟩

/-- C5: normalization never reorders surviving content: the output of
`clean_extracted_text` is a subsequence of its input (each removal
deletes matched material, the blank-line collapse replaces a matched
run — which always contains two newlines — by `"\n\n"`, and the final
trim deletes edge whitespace). -/
theorem C5_clean_output_subsequence (x : String) :
    (clean_extracted_text x).data.Sublist x.data := by
  by_cases h : x.isEmpty = true
  · have : clean_extracted_text x = "" := by
      unfold clean_extracted_text; simp [h]
    rw [this]
    exact List.nil_sublist _
  · rw [clean_eq_pipeline x (Bool.not_eq_true _ ▸ h)]
    show (pyStrip _).Sublist x.data
    exact ((((((pyStrip_sublist _).trans
      (subAll_blank_sublist _)).trans
      (subAll_nil_sublist patStars false _)).trans
      (subAll_nil_sublist patYours false _)).trans
      (subAll_nil_sublist patIssued false _)).trans
      (subAll_nil_sublist patPage false _)).trans
      (subAll_nil_sublist patLetterhead true _)

/-- C6: on empty input the analysis step answers the fixed "no text"
message for every possible behaviour of the generative-service oracle
(hence no outbound call is observable), and normalizing the empty
string yields the empty string. -/
theorem C6_empty_input (llm : String → Except String String) :
    clean_extracted_text "" = "" ∧
    get_llm_analysis llm "" = "No text extracted from PDF for analysis." :=
  ⟨rfl, rfl⟩

/-- C7: whenever the outbound call raises, `get_llm_analysis` returns
the textual message embedding the failure detail (and, being a total
function into `String`, it never propagates an exception). -/
theorem C7_llm_error_to_message (model : String → Except String String)
    (text e : String) (h1 : text.isEmpty = false)
    (h2 : model (buildPrompt text) = .error e) :
    get_llm_analysis model text
      = "Error communicating with Gemini API: " ++ e := by
  unfold get_llm_analysis
  rw [h1, h2]
  simp

theorem C7_llm_error_to_message_witness :
    get_llm_analysis (fun _ => .error "invalid credential") "some text"
      = "Error communicating with Gemini API: " ++ "invalid credential" :=
  C7_llm_error_to_message _ "some text" "invalid credential" rfl rfl

/-- C8: a page routed to the OCR path (and whose recognition succeeds)
contributes exactly the recognized fragments joined by single spaces,
in the order the engine returned them. -/
theorem C8_ocr_space_join (p : Page) (h1 : p.loadFails = false)
    (h2 : pageUsesOCR p.nativeText = true) (h3 : p.ocrFails = false) :
    extractPage p = some (spaceJoin p.ocrFragments) := by
  simp [extractPage, h1, h2, h3]

theorem C8_ocr_space_join_witness :
    extractPage ⟨"", false, ["hello", "world"], false⟩ = some "hello world" :=
  C8_ocr_space_join _ rfl rfl rfl

/-- C9: the page limit defaults to 20 — the UI call site
(`extract_text_from_pdf(pdf_bytes)`) uses it — and on a document with
more than 20 pages only the first 20 contribute to the output. -/
theorem C9_default_page_limit (doc : Option (List Page)) (pages : List Page)
    (h : 20 < pages.length) :
    ui_extracted_text doc = extract_text_from_pdf doc 20 ∧
    extract_text_from_pdf (some pages) 20
      = extract_text_from_pdf (some (pages.take 20)) 20 := by
  refine ⟨rfl, ?_⟩
  show extractLoop (pages.take 20) ""
    = extractLoop ((pages.take 20).take 20) ""
  rw [List.take_take, min_self]

theorem C9_default_page_limit_witness :
    ui_extracted_text (some (List.replicate 21 (⟨"", false, ["a"], false⟩ : Page)))
      = extract_text_from_pdf
          (some ((List.replicate 21 (⟨"", false, ["a"], false⟩ : Page)).take 20)) 20 := by
  have h := C9_default_page_limit
    (some (List.replicate 21 (⟨"", false, ["a"], false⟩ : Page)))
    (List.replicate 21 (⟨"", false, ["a"], false⟩ : Page)) (by decide)
  exact h.1.trans h.2

/-- C10: only the letterhead removal is case-insensitive.  A fully
ASCII-lowercased letterhead is still removed, while lowercase variants
of the footer, date-line and sign-off patterns survive unchanged (the
canonical spellings are removed), and `"page 1 of 2"` in particular
survives normalization. -/
theorem C10_case_sensitivity :
    clean_extracted_text ("S=3" ++ letterheadTail) = "" ∧
    clean_extracted_text
        ("s=3" ++ String.mk (letterheadTail.data.map pyToLower)) = "" ∧
    clean_extracted_text "Page 1 of 2" = "" ∧
    clean_extracted_text "page 1 of 2" = "page 1 of 2" ∧
    clean_extracted_text "Issued on: March 5, 2024" = "" ∧
    clean_extracted_text "issued on: March 5, 2024"
      = "issued on: March 5, 2024" ∧
    clean_extracted_text "Yours faithfully," = "" ∧
    clean_extracted_text "yours faithfully," = "yours faithfully," := by
  exact ⟨rfl, rfl, rfl, rfl, rfl, rfl, rfl, rfl⟩

end SebiApp
